import Mathlib

/-!
Verification of the SwiftPost queue-management backend.

This file is a shallow embedding of the queue-ordering and token-lifecycle
engine of the SwiftPost repository:

* `backend/src/services/QueueManager.ts` — token generation, FIFO lookup,
  counter assignment, completion, queue position, wait-time estimation;
* `backend/src/services/CounterService.ts` — counter registration,
  (de)activation, guarded counter assignment;
* `backend/src/routes/tokens.ts` — service-type validation at the API layer.

The Prisma/PostgreSQL store is modelled as an explicit `DB` value: the token
table is a list in insertion (auto-increment id) order, the counter table a
list, and every service method becomes a pure function from a `DB` (plus the
current clock value in milliseconds, for code that calls `new Date()`) to an
`Except Err` result paired with the successor `DB`.  Timestamps are `Int`
milliseconds since the epoch; `Date#toISOString` rendering is omitted because
no verified property depends on the textual form of a timestamp.
-/

namespace SwiftPost

/-! ## Decimal rendering of token sequence numbers

JavaScript renders the candidate sequence number with
`String(tokenNum).padStart(3, '0')`.  `natDigits` is the decimal digit list
of a natural number (most significant digit first), `pad3` left-pads it with
the character zero to width three. -/

/-- Decimal digit character for a single digit value (values `≥ 9` clamp
to `'9'`; every call site passes a value `< 10`). -/
def digitChar (d : Nat) : Char :=
  match d with
  | 0 => '0' | 1 => '1' | 2 => '2' | 3 => '3' | 4 => '4'
  | 5 => '5' | 6 => '6' | 7 => '7' | 8 => '8' | _ => '9'

/-- Fuel-indexed decimal digit expansion; `fuel ≥ n` makes it total. -/
def natDigitsAux : Nat → Nat → List Char
  | 0, _ => []
  | fuel + 1, n =>
    if n = 0 then [] else natDigitsAux fuel (n / 10) ++ [digitChar (n % 10)]

/-- Decimal digit list of `n`, most significant digit first, as produced by
the JavaScript `String(n)` conversion for a nonnegative integer. -/
def natDigits (n : Nat) : List Char :=
  if n = 0 then ['0'] else natDigitsAux n n

/-- Left-pad the decimal digits of `n` with zeros to width three, the
JavaScript `String(n).padStart(3, '0')`. -/
def pad3 (n : Nat) : List Char :=
  List.replicate (3 - (natDigits n).length) '0' ++ natDigits n

/-- Numeric value of a digit character. -/
def digitVal (c : Char) : Nat := c.toNat - 48

/-- One step of decimal parsing. -/
def parseStep (a : Nat) (c : Char) : Nat := 10 * a + digitVal c

/-- Decimal parse of a digit list; a left inverse of the rendering above. -/
def parseNat (l : List Char) : Nat := l.foldl parseStep 0

theorem digitVal_digitChar {d : Nat} (hd : d < 10) : digitVal (digitChar d) = d := by
  interval_cases d <;> rfl

theorem foldl_parseStep_natDigitsAux (fuel : Nat) :
    ∀ n a : Nat, n ≤ fuel →
      (natDigitsAux fuel n).foldl parseStep a =
        a * 10 ^ (natDigitsAux fuel n).length + n := by
  induction fuel with
  | zero =>
    intro n a h
    interval_cases n
    simp [natDigitsAux]
  | succ fuel ih =>
    intro n a h
    by_cases hn : n = 0
    · simp [natDigitsAux, hn]
    · have hle : n / 10 ≤ fuel := by omega
      have hrec := ih (n / 10) a hle
      simp only [natDigitsAux, if_neg hn, List.foldl_append, List.length_append,
        List.length_cons, List.length_nil, List.foldl_cons, List.foldl_nil]
      rw [hrec]
      have hdv : digitVal (digitChar (n % 10)) = n % 10 :=
        digitVal_digitChar (Nat.mod_lt _ (by omega))
      simp only [parseStep, hdv]
      have : 10 * (n / 10) + n % 10 = n := Nat.div_add_mod n 10
      ring_nf
      omega

theorem parseNat_natDigits (n : Nat) : parseNat (natDigits n) = n := by
  by_cases hn : n = 0
  · subst hn; rfl
  · simp only [parseNat, natDigits, if_neg hn]
    have := foldl_parseStep_natDigitsAux n n 0 (Nat.le_refl n)
    simpa using this

theorem foldl_parseStep_replicate_zero (k : Nat) :
    (List.replicate k '0').foldl parseStep 0 = 0 := by
  induction k with
  | zero => rfl
  | succ k ih => simpa [List.replicate_succ, parseStep, digitVal] using ih

theorem parseNat_pad3 (n : Nat) : parseNat (pad3 n) = n := by
  have h0 := foldl_parseStep_replicate_zero (3 - (natDigits n).length)
  calc parseNat (pad3 n)
      = (natDigits n).foldl parseStep
          ((List.replicate (3 - (natDigits n).length) '0').foldl parseStep 0) := by
        simp [parseNat, pad3, List.foldl_append]
    _ = (natDigits n).foldl parseStep 0 := by rw [h0]
    _ = n := parseNat_natDigits n

theorem pad3_injective : Function.Injective pad3 := by
  intro a b h
  have := congrArg parseNat h
  rwa [parseNat_pad3, parseNat_pad3] at this

/-- Display-code formatting of `QueueManager.generateToken`:
the template literal `` `${prefix}-${String(tokenNum).padStart(3, '0')}` ``. -/
def formatCode (pfx : String) (n : Nat) : String :=
  pfx ++ "-" ++ String.mk (pad3 n)

theorem formatCode_inj (pfx : String) {a b : Nat}
    (h : formatCode pfx a = formatCode pfx b) : a = b := by
  have hd := congrArg String.data h
  simp only [formatCode, String.data_append, String.mk, List.append_assoc] at hd
  have h2 := List.append_cancel_left hd
  exact pad3_injective (List.append_cancel_left h2)

/-! ## Data model

Mirrors the Prisma schema (`tokens`, `counters` tables): `tokenNumber` is
unique, `counterId` is a nullable foreign key into `counters`, `id` is an
auto-increment key (`nextId` in `DB` is the sequence's next value). -/

inductive TokenStatus where
  | WAITING
  | SERVING
  | COMPLETED
deriving DecidableEq, Repr

inductive CounterStatus where
  | ACTIVE
  | INACTIVE
deriving DecidableEq, Repr

structure Token where
  id : Nat
  tokenNumber : String
  serviceType : String
  status : TokenStatus
  queuePosition : Option Nat
  counterId : Option Nat
  createdAt : Int
  calledAt : Option Int
  completedAt : Option Int
deriving DecidableEq, Repr

structure Counter where
  id : Nat
  number : Nat
  status : CounterStatus
deriving DecidableEq, Repr

/-- Database state: the tokens table in insertion (id) order, the counters
table, and the next auto-increment token id. -/
structure DB where
  tokens : List Token
  counters : List Counter
  nextId : Nat
deriving DecidableEq, Repr

/-- Typed failure outcomes. Constructors correspond to the `throw new
Error(...)` sites and Prisma/PostgreSQL errors raised by the services. -/
inductive Err where
  /-- `QueueManager.generateToken`: 'Unable to generate unique token number'. -/
  | generationExhausted
  /-- Prisma P2025: `update` on a `where` clause matching no row. -/
  | recordNotFound
  /-- PostgreSQL foreign-key violation: `counterId` names no counter row. -/
  | foreignKeyViolation
  /-- `CounterService.assignCounter`: 'Counter not found'. -/
  | counterNotFound
  /-- `CounterService.assignCounter`: 'Counter is inactive'. -/
  | counterInactive
  /-- `CounterService.assignCounter`: 'Counter is already serving a token'. -/
  | counterBusy
  /-- `CounterService.deactivateCounter`: 'Cannot deactivate counter with
  active tokens'. -/
  | counterHasActiveTokens
deriving DecidableEq, Repr

instance {ε α : Type} [DecidableEq ε] [DecidableEq α] : DecidableEq (Except ε α)
  | .error e, .error f =>
    if h : e = f then .isTrue (congrArg Except.error h)
    else .isFalse (fun hc => h (Except.error.inj hc))
  | .error _, .ok _ => .isFalse (fun hc => Except.noConfusion hc)
  | .ok _, .error _ => .isFalse (fun hc => Except.noConfusion hc)
  | .ok a, .ok b =>
    if h : a = b then .isTrue (congrArg Except.ok h)
    else .isFalse (fun hc => h (Except.ok.inj hc))

/-! ## Service-type prefixes and API-layer validation -/

/-- Embeds `QueueManager.getServicePrefix` (the Lean name drops the `get`
to satisfy local naming constraints).  Faithful to the source lookup
`prefixMap[serviceType] || 'G'`: an unmapped service type falls back
to the letter `G`. -/
def servicePrefixOf (serviceType : String) : String :=
  if serviceType = "Parcel Drop-off" then "P"
  else if serviceType = "Banking Services" then "B"
  else if serviceType = "General Inquiry" then "G"
  else if serviceType = "Document Verification" then "D"
  else "G"

/-- The `validServiceTypes` list of `routes/tokens.ts` (`POST /`). -/
def validServiceTypes : List String :=
  ["Parcel Drop-off", "Banking Services", "General Inquiry", "Document Verification"]

/-- The API-layer guard of `routes/tokens.ts` (`POST /`): a request is passed
on to `QueueManager.generateToken` only when this holds. -/
def routeAcceptsServiceType (serviceType : String) : Bool :=
  validServiceTypes.contains serviceType

/-! ## Token generation (`QueueManager.generateToken`) -/

/-- Milliseconds per calendar day. -/
def msPerDay : Int := 86400000

/-- Midnight of the day containing `now`, modelling
`todayStart.setHours(0, 0, 0, 0)`. -/
def dayStart (now : Int) : Int := msPerDay * (now / msPerDay)

/-- Membership of a timestamp in the current-day window
`[todayStart, todayEnd]` with `todayEnd = 23:59:59.999` of the same day. -/
def inTodayWindow (now t : Int) : Bool :=
  decide (dayStart now ≤ t) && decide (t ≤ dayStart now + (msPerDay - 1))

/-- Check used by the generation retry loop:
`tx.token.findUnique({ where: { tokenNumber } })` is non-null. -/
def tokenNumberExists (db : DB) (tn : String) : Bool :=
  db.tokens.any (fun t => t.tokenNumber == tn)

/-- The bounded do/while retry loop of `generateToken`: candidates are
`base + 1, …, base + 10` (with `base` the current-day count); the first whose
code is unused wins, and exhaustion of all ten attempts is a failure. -/
def findFreeTokenNumber (db : DB) (pfx : String) (base : Nat) : Option String :=
  (List.range 10).findSome? fun a =>
    let tn := formatCode pfx (base + a + 1)
    if tokenNumberExists db tn then none else some tn

/-- The `prisma.$transaction` body of `QueueManager.generateToken`: count the
current-day tokens of the service type, pick the first free candidate code,
compute the advisory queue position, and insert the new `WAITING` row. -/
def generateTokenTx (db : DB) (now : Int) (serviceType : String) :
    Except Err (Token × DB) :=
  let pfx := servicePrefixOf serviceType
  let todayTokens := db.tokens.countP
    (fun t => t.serviceType == serviceType && inTodayWindow now t.createdAt)
  match findFreeTokenNumber db pfx todayTokens with
  | none => .error .generationExhausted
  | some tn =>
    let pos := db.tokens.countP
      (fun t => t.status == TokenStatus.WAITING && t.serviceType == serviceType) + 1
    let tok : Token :=
      { id := db.nextId
        tokenNumber := tn
        serviceType := serviceType
        status := TokenStatus.WAITING
        queuePosition := some pos
        counterId := none
        createdAt := now
        calledAt := none
        completedAt := none }
    .ok (tok, { db with tokens := db.tokens ++ [tok], nextId := db.nextId + 1 })

/-! ## Wait-time estimation (`QueueManager.estimateWaitTime`) -/

/-- JavaScript `Math.round` of the exact rational `a / b` for `b > 0`:
round half toward positive infinity, i.e. the floor of `a / b + 1 / 2`.
(The source computes the quotient in floating point; the operands reached in
practice are exactly representable, so the rational model is exact.) -/
def jsRoundDiv (a b : Int) : Int := Int.fdiv (2 * a + b) (2 * b)

/-- Embeds `QueueManager.estimateWaitTime`.  Note the source's 24-hour window
filters on `createdAt` (`createdAt: { gte: yesterday }`), not on
`completedAt`, and the average is rounded to whole minutes with `Math.round`
before the 2-minute floor is applied. -/
def estimateWaitTime (db : DB) (now : Int) (queuePosition : Int) : Int :=
  let yesterday := now - msPerDay
  let completedTokens := db.tokens.filter
    (fun t => t.status == TokenStatus.COMPLETED && t.calledAt.isSome &&
      t.completedAt.isSome && decide (yesterday ≤ t.createdAt))
  let averageServiceTime : Int :=
    if completedTokens.length = 0 then 5
    else
      let totalServiceTime := completedTokens.foldl
        (fun sum t =>
          match t.calledAt, t.completedAt with
          | some c, some d => sum + (d - c)
          | _, _ => sum) 0
      max (jsRoundDiv totalServiceTime ((completedTokens.length : Int) * 60000)) 2
  max 0 ((queuePosition - 1) * averageServiceTime)

/-- JavaScript `result.queuePosition || 1`: null and zero both collapse
to one. -/
def jsOrOne (p : Option Nat) : Nat :=
  match p with
  | none => 1
  | some 0 => 1
  | some n => n

/-- Shape of the value returned by `generateToken` and `getTokenDetails`
(the `TokenWithDetails` interface; ISO-string rendering of timestamps is
omitted, the numeric timestamps are carried instead). -/
structure TokenWithDetails where
  tokenNumber : String
  serviceType : String
  status : TokenStatus
  queuePosition : Nat
  estimatedWaitTime : Int
  counter : Option Nat
  createdAt : Int
  calledAt : Option Int
  completedAt : Option Int
deriving DecidableEq, Repr

/-- Embeds `QueueManager.generateToken`: run the transaction, then compute
the estimated wait time against the committed state and assemble the
`TokenWithDetails` response. -/
def generateToken (db : DB) (now : Int) (serviceType : String) :
    Except Err (TokenWithDetails × DB) :=
  match generateTokenTx db now serviceType with
  | .error e => .error e
  | .ok (tok, db') =>
    let est := estimateWaitTime db' now (jsOrOne tok.queuePosition : Int)
    .ok
      ({ tokenNumber := tok.tokenNumber
         serviceType := serviceType
         status := tok.status
         queuePosition := jsOrOne tok.queuePosition
         estimatedWaitTime := est
         counter := none
         createdAt := tok.createdAt
         calledAt := none
         completedAt := none }, db')

/-! ## FIFO lookup (`QueueManager.getNextToken`) -/

/-- Result of `findFirst({ where: { status: WAITING }, orderBy: { createdAt:
'asc' } })` when the database enumerates the rows in the order given by
`scan`: the first `WAITING` row in scan order with minimal `createdAt`.  The
query orders by `createdAt` alone, so SQL leaves the choice among rows with
equal `createdAt` to the engine; the scan order is therefore a parameter (in
PostgreSQL the heap order need not be the insertion order).
`minStep` keeps the earlier row of two with equal `createdAt`. -/
def minStep (acc : Option Token) (t : Token) : Option Token :=
  match acc with
  | none => some t
  | some b => if t.createdAt < b.createdAt then some t else some b

/-- First `WAITING` row with minimal `createdAt` in the order given by
`scan`; see `minStep`. -/
def getNextTokenScan (scan : List Token) : Option Token :=
  (scan.filter (fun t => t.status == TokenStatus.WAITING)).foldl minStep none

/-- Embeds `QueueManager.getNextToken` for the insertion-order enumeration
of the token table. -/
def getNextToken (db : DB) : Option Token :=
  getNextTokenScan db.tokens

/-! ## State transitions (`assignTokenToCounter`, `completeToken`) -/

/-- Update of the single row matched by a unique-key `where` clause: rewrite
the first element satisfying `p` and return it, or `none` when no row
matches (Prisma error P2025). -/
def updateFirst (p : Token → Bool) (f : Token → Token) :
    List Token → Option (Token × List Token)
  | [] => none
  | t :: ts =>
    if p t then some (f t, f t :: ts)
    else
      match updateFirst p f ts with
      | none => none
      | some (u, l) => some (u, t :: l)

/-- Row rewrite performed by `assignTokenToCounter`'s update `data`. -/
def assignData (now : Int) (counterId : Nat) (t : Token) : Token :=
  { t with status := TokenStatus.SERVING
           counterId := some counterId
           calledAt := some now }

/-- Row rewrite performed by `completeToken`'s update `data` (the
`counterId: null` line frees the counter). -/
def completeData (now : Int) (t : Token) : Token :=
  { t with status := TokenStatus.COMPLETED
           completedAt := some now
           counterId := none }

/-- Embeds `QueueManager.assignTokenToCounter`: an unconditional
`prisma.token.update` setting `status = SERVING`, `counterId` and
`calledAt = now`.  The source checks neither the token's current status nor
the counter's availability; the only failures are an unmatched token number
(P2025) and the `counterId` foreign key naming no counter row. -/
def assignTokenToCounter (db : DB) (now : Int) (tokenNumber : String)
    (counterId : Nat) : Except Err (Token × DB) :=
  match updateFirst (fun t => t.tokenNumber == tokenNumber)
      (assignData now counterId) db.tokens with
  | none => .error .recordNotFound
  | some (u, ts) =>
    if db.counters.any (fun c => c.id == counterId) then
      .ok (u, { db with tokens := ts })
    else .error .foreignKeyViolation

/-- Embeds `QueueManager.completeToken`: an unconditional
`prisma.token.update` setting `status = COMPLETED`, `completedAt = now` and
`counterId = null`.  The source does not check that the token is currently
`SERVING`. -/
def completeToken (db : DB) (now : Int) (tokenNumber : String) :
    Except Err (Token × DB) :=
  match updateFirst (fun t => t.tokenNumber == tokenNumber)
      (completeData now) db.tokens with
  | none => .error .recordNotFound
  | some (u, ts) => .ok (u, { db with tokens := ts })

/-! ## Queue position (`QueueManager.calculateQueuePosition`) -/

/-- Embeds `QueueManager.calculateQueuePosition`: zero for an unknown or
non-`WAITING` token, otherwise one plus the count of `WAITING` tokens of the
same service type created strictly earlier. -/
def calculateQueuePosition (db : DB) (tokenNumber : String) : Nat :=
  match db.tokens.find? (fun t => t.tokenNumber == tokenNumber) with
  | none => 0
  | some tok =>
    if tok.status ≠ TokenStatus.WAITING then 0
    else
      db.tokens.countP
        (fun t => t.status == TokenStatus.WAITING &&
          t.serviceType == tok.serviceType &&
          decide (t.createdAt < tok.createdAt)) + 1

/-! ## Counter-side operations (`CounterService`) -/

/-- Predicate for a `SERVING` token referencing counter `cid` (the
`tokens: { where: { status: 'SERVING' } }` relation filter). -/
def servingOn (cid : Nat) (t : Token) : Bool :=
  t.counterId == some cid && t.status == TokenStatus.SERVING

/-- Embeds `CounterService.assignCounter`: look up the counter, reject when
it is missing, inactive, or already has a `SERVING` token, then delegate to
`QueueManager.assignTokenToCounter`.  No check of the token's state is made
anywhere on this path. -/
def assignCounter (db : DB) (now : Int) (counterId : Nat)
    (tokenNumber : String) : Except Err (Token × DB) :=
  match db.counters.find? (fun c => c.id == counterId) with
  | none => .error .counterNotFound
  | some c =>
    if c.status = CounterStatus.INACTIVE then .error .counterInactive
    else if (db.tokens.filter (servingOn counterId)).length > 0 then
      .error .counterBusy
    else assignTokenToCounter db now tokenNumber counterId

/-- Single-row update of the counter matched by a unique-key `where`
clause. -/
def updateFirstCounter (p : Counter → Bool) (f : Counter → Counter) :
    List Counter → Option (Counter × List Counter)
  | [] => none
  | c :: cs =>
    if p c then some (f c, f c :: cs)
    else
      match updateFirstCounter p f cs with
      | none => none
      | some (u, l) => some (u, c :: l)

/-- Embeds `CounterService.deactivateCounter`: count the `SERVING` tokens
referencing the counter, reject when any exist, otherwise set the counter's
status to `INACTIVE`. -/
def deactivateCounter (db : DB) (counterId : Nat) :
    Except Err (Counter × DB) :=
  let activeTokens := db.tokens.countP (servingOn counterId)
  if activeTokens > 0 then .error .counterHasActiveTokens
  else
    match updateFirstCounter (fun c => c.id == counterId)
        (fun c => { c with status := CounterStatus.INACTIVE }) db.counters with
    | none => .error .recordNotFound
    | some (u, cs) => .ok (u, { db with counters := cs })

/-! ## Token details (`QueueManager.getTokenDetails`) -/

/-- Counter label joined through the `counterId` relation,
`token.counter?.number || null`. -/
def counterNumberOf (db : DB) (t : Token) : Option Nat :=
  match t.counterId with
  | none => none
  | some cid => (db.counters.find? (fun c => c.id == cid)).map (fun c => c.number)

/-- Embeds `QueueManager.getTokenDetails`: `none` for an unknown code;
otherwise the live queue position and wait-time estimate are computed only
for a `WAITING` token, and both report zero for any other status. -/
def getTokenDetails (db : DB) (now : Int) (tokenNumber : String) :
    Option TokenWithDetails :=
  match db.tokens.find? (fun t => t.tokenNumber == tokenNumber) with
  | none => none
  | some tok =>
    let currentPosition :=
      if tok.status = TokenStatus.WAITING then
        calculateQueuePosition db tokenNumber
      else 0
    let est :=
      if tok.status = TokenStatus.WAITING then
        estimateWaitTime db now (currentPosition : Int)
      else 0
    some
      { tokenNumber := tok.tokenNumber
        serviceType := tok.serviceType
        status := tok.status
        queuePosition := currentPosition
        estimatedWaitTime := est
        counter := counterNumberOf db tok
        createdAt := tok.createdAt
        calledAt := tok.calledAt
        completedAt := tok.completedAt }

/-! ## Derived notions used by the verified properties -/

/-- Sequential composition of token generations: run `generateToken` once per
entry of `times` (each entry is the clock value of that call) and collect the
returned display codes. -/
def generateMany (serviceType : String) : DB → List Int → Except Err (List String × DB)
  | db, [] => .ok ([], db)
  | db, now :: rest =>
    match generateToken db now serviceType with
    | .error e => .error e
    | .ok (twd, db') =>
      match generateMany serviceType db' rest with
      | .error e => .error e
      | .ok (codes, db'') => .ok (twd.tokenNumber :: codes, db'')

/-- Modelled from the claim's words (C6), for comparison with the source's
`estimateWaitTime`: `avgServiceMinutes` is the exact mean of
`completedAt − calledAt` (in minutes, as a rational) over all tokens
*completed* within the trailing 24-hour window that have both `calledAt` and
`completedAt` set, defaulting to 5 with no such token and floored at 2
otherwise; the result is `max 0 ((queuePosition − 1) × avgServiceMinutes)`. -/
def estimateWaitTimeClaimed (db : DB) (now : Int) (queuePosition : Int) : Rat :=
  let inWindow := db.tokens.filter
    (fun t =>
      t.status == TokenStatus.COMPLETED && t.calledAt.isSome &&
      t.completedAt.isSome && decide (now - msPerDay ≤ t.completedAt.getD 0))
  let avgServiceMinutes : Rat :=
    if inWindow.length = 0 then 5
    else
      let meanMinutes : Rat :=
        ((inWindow.map (fun t => t.completedAt.getD 0 - t.calledAt.getD 0)).sum : Int) /
          ((inWindow.length : Rat) * 60000)
      if meanMinutes ≤ 2 then 2 else meanMinutes
  let raw : Rat := (queuePosition - 1 : Int) * avgServiceMinutes
  if raw ≤ 0 then 0 else raw

/-- Restatement of the C6 algorithm in the claim's shape but with the two
divergences the code forces: the 24-hour window filters on `createdAt`
(tokens *created* in the window) and the mean is rounded to whole minutes
(half toward positive infinity) before the 2-minute floor. -/
def estimateWaitTimeAmended (db : DB) (now : Int) (queuePosition : Int) : Int :=
  let recent := db.tokens.filter
    (fun t =>
      t.status == TokenStatus.COMPLETED && t.calledAt.isSome &&
      t.completedAt.isSome && decide (now - msPerDay ≤ t.createdAt))
  let avgServiceMinutes : Int :=
    if recent.length = 0 then 5
    else
      max (jsRoundDiv ((recent.map
            (fun t => t.completedAt.getD 0 - t.calledAt.getD 0)).sum)
          ((recent.length : Int) * 60000)) 2
  max 0 ((queuePosition - 1) * avgServiceMinutes)

/-- Token-level invariant of claim C7: a non-null `counterRef` occurs only in
state `Serving`, and a `Completed` token has a null `counterRef`. -/
def TokenInv (t : Token) : Prop :=
  (t.counterId ≠ none → t.status = TokenStatus.SERVING) ∧
  (t.status = TokenStatus.COMPLETED → t.counterId = none)

/-- Database states reachable through the core token operations of
`QueueManager`: any token-free initial state, then `generateToken`,
`assignTokenToCounter` and `completeToken` in any order, at any clock
values, with any arguments. -/
inductive Reachable : DB → Prop where
  | init (counters : List Counter) (nextId : Nat) :
      Reachable { tokens := [], counters := counters, nextId := nextId }
  | gen {db : DB} {now : Int} {st : String} {twd : TokenWithDetails} {db' : DB} :
      Reachable db → generateToken db now st = .ok (twd, db') → Reachable db'
  | assign {db : DB} {now : Int} {tn : String} {cid : Nat} {tok : Token} {db' : DB} :
      Reachable db → assignTokenToCounter db now tn cid = .ok (tok, db') →
      Reachable db'
  | complete {db : DB} {now : Int} {tn : String} {tok : Token} {db' : DB} :
      Reachable db → completeToken db now tn = .ok (tok, db') → Reachable db'

/-- Invariant of claim C8: no `INACTIVE` counter is referenced by a
`SERVING` token. -/
def InactiveCountersIdle (db : DB) : Prop :=
  ∀ c ∈ db.counters, c.status = CounterStatus.INACTIVE →
    ∀ t ∈ db.tokens, ¬(t.counterId = some c.id ∧ t.status = TokenStatus.SERVING)

/-- Uniqueness of display codes, the `tokenNumber` unique constraint. -/
def UniqueTokenNumbers (db : DB) : Prop :=
  db.tokens.Pairwise (fun a b => a.tokenNumber ≠ b.tokenNumber)

instance (db : DB) : Decidable (UniqueTokenNumbers db) := by
  unfold UniqueTokenNumbers
  infer_instance

/-! ## Concrete states used for counterexamples and witnesses -/

/-- Empty store, auto-increment sequence at 1. -/
def emptyDB : DB := { tokens := [], counters := [], nextId := 1 }

/-- Completed parcel token `P-001`, served at counter 1 from clock 2000 to
clock 3000, counter reference already cleared. -/
def exTokenCompleted : Token :=
  { id := 1
    tokenNumber := "P-001"
    serviceType := "Parcel Drop-off"
    status := TokenStatus.COMPLETED
    queuePosition := some 1
    counterId := none
    createdAt := 1000
    calledAt := some 2000
    completedAt := some 3000 }

/-- Active counter number 1. -/
def exCounterActive : Counter := { id := 1, number := 1, status := CounterStatus.ACTIVE }

/-- Store holding the completed token `P-001` and the idle active counter. -/
def exDB1 : DB := { tokens := [exTokenCompleted], counters := [exCounterActive], nextId := 2 }

/-- Reference clock for the C6 scenario. -/
def exNow : Int := 100000000000

/-- Token created 25 hours before `exNow` whose 10-minute service finished
20 minutes before `exNow`: completed inside the trailing 24-hour window,
created outside it. -/
def exTokenOldCreated : Token :=
  { id := 1
    tokenNumber := "P-001"
    serviceType := "Parcel Drop-off"
    status := TokenStatus.COMPLETED
    queuePosition := some 1
    counterId := none
    createdAt := exNow - 90000000
    calledAt := some (exNow - 1800000)
    completedAt := some (exNow - 1200000) }

/-- Store holding only `exTokenOldCreated`. -/
def exDB6 : DB := { tokens := [exTokenOldCreated], counters := [], nextId := 2 }

/-- Waiting parcel token with id 1, created at clock 1000. -/
def exTokWaitA : Token :=
  { id := 1
    tokenNumber := "P-001"
    serviceType := "Parcel Drop-off"
    status := TokenStatus.WAITING
    queuePosition := some 1
    counterId := none
    createdAt := 1000
    calledAt := none
    completedAt := none }

/-- Waiting banking token with id 2, created at the same clock value 1000
(`TIMESTAMP(3)` stores milliseconds, so same-millisecond inserts collide). -/
def exTokWaitB : Token :=
  { id := 2
    tokenNumber := "B-001"
    serviceType := "Banking Services"
    status := TokenStatus.WAITING
    queuePosition := some 1
    counterId := none
    createdAt := 1000
    calledAt := none
    completedAt := none }

/-- Store with the two simultaneous waiting tokens in insertion order. -/
def exDB4 : DB := { tokens := [exTokWaitA, exTokWaitB], counters := [], nextId := 3 }

/-- Second waiting parcel token, created later than `exTokWaitA`. -/
def exTokWaitA2 : Token :=
  { id := 3
    tokenNumber := "P-002"
    serviceType := "Parcel Drop-off"
    status := TokenStatus.WAITING
    queuePosition := some 2
    counterId := none
    createdAt := 5000
    calledAt := none
    completedAt := none }

/-- Store with two waiting parcel tokens and the completed one, plus a
serving token at counter 1; used by position and counter witnesses. -/
def exTokenServing : Token :=
  { id := 4
    tokenNumber := "G-001"
    serviceType := "General Inquiry"
    status := TokenStatus.SERVING
    queuePosition := some 1
    counterId := some 1
    createdAt := 6000
    calledAt := some 7000
    completedAt := none }

/-- Mixed store: one waiting pair of parcel tokens, one serving token on
counter 1, one completed token. -/
def exDB5 : DB :=
  { tokens := [exTokenCompleted, exTokWaitA2, exTokenServing,
      { exTokWaitA with id := 5, tokenNumber := "P-003", createdAt := 9000 }]
    counters := [exCounterActive]
    nextId := 6 }

/-- Initial store for the C7 reachability witness: one active counter, no
tokens. -/
def exGenDB0 : DB := { tokens := [], counters := [exCounterActive], nextId := 1 }

/-- Token row created by `generateToken` on `exGenDB0` at clock 1000. -/
def exGenTok1 : Token :=
  { id := 1
    tokenNumber := "P-001"
    serviceType := "Parcel Drop-off"
    status := TokenStatus.WAITING
    queuePosition := some 1
    counterId := none
    createdAt := 1000
    calledAt := none
    completedAt := none }

/-- Response value returned for that creation (empty history, so the
estimate at position 1 is zero). -/
def exGenTWD1 : TokenWithDetails :=
  { tokenNumber := "P-001"
    serviceType := "Parcel Drop-off"
    status := TokenStatus.WAITING
    queuePosition := 1
    estimatedWaitTime := 0
    counter := none
    createdAt := 1000
    calledAt := none
    completedAt := none }

/-- Store after the creation step. -/
def exGenDB1 : DB :=
  { tokens := [exGenTok1], counters := [exCounterActive], nextId := 2 }

/-- The token after being assigned to counter 1 at clock 2000. -/
def exAssignedTok : Token := assignData 2000 1 exGenTok1

/-- Store after the assignment step. -/
def exGenDB2 : DB :=
  { tokens := [exAssignedTok], counters := [exCounterActive], nextId := 2 }

/-! ## Claim C1 and C2: missing state-machine guards -/

/-- Claim C1: `assignToCounter` is claimed to succeed only on a `Waiting`
token and to fail with `InvalidTransition` otherwise.  The code has no such
guard: with the store `exDB1` holding the `COMPLETED` token `P-001` and the
idle active counter 1, `CounterService.assignCounter` succeeds and moves the
completed token back to `SERVING` with `counterRef = 1`, `calledAt = 5000`. -/
theorem c1_assign_succeeds_on_non_waiting_token :
    exTokenCompleted.status = TokenStatus.COMPLETED ∧
    exCounterActive.status = CounterStatus.ACTIVE ∧
    (assignCounter exDB1 5000 1 "P-001").toOption.map
        (fun r => (r.1.status, r.1.counterId, r.1.calledAt)) =
      some (TokenStatus.SERVING, some 1, some 5000) := by decide

/-- Claim C2: `completeToken` is claimed to succeed only on a `Serving`
token, and re-completing an already-`Completed` token is claimed to fail
with `InvalidTransition` leaving the token unchanged.  The code performs an
unconditional update: on the store `exDB1` whose token `P-001` is already
`COMPLETED` with `completedAt = 3000`, `completeToken` succeeds again and
rewrites `completedAt` to the new clock value 6000. -/
theorem c2_complete_succeeds_on_completed_token :
    exTokenCompleted.status = TokenStatus.COMPLETED ∧
    exTokenCompleted.completedAt = some 3000 ∧
    (completeToken exDB1 6000 "P-001").toOption.map
        (fun r => (r.1.status, r.1.completedAt)) =
      some (TokenStatus.COMPLETED, some 6000) := by decide

/-! ## Claim C9: default-prefix fallback for unknown categories -/

/-- Claim C9: the API layer does reject a category outside the fixed
enumeration, but the identity generator itself does not: called directly
with the unknown category `Express Delivery` on an empty store it falls back
to the default prefix `G` and produces the display code `G-001` instead of
failing. -/
theorem c9_generator_falls_back_on_unknown_category :
    routeAcceptsServiceType "Express Delivery" = false ∧
    servicePrefixOf "Express Delivery" = "G" ∧
    (generateTokenTx emptyDB 0 "Express Delivery").toOption.map
        (fun r => r.1.tokenNumber) = some "G-001" := by decide

/-! ## Claim C4: FIFO lookup and the missing tie-break key -/

/-- Claim C4 counterexample: the query behind `getNextToken` orders by
`createdAt` alone, so among `WAITING` rows with equal `createdAt` the engine
may return any of them.  `exDB4` holds tokens inserted in the order
`exTokWaitA` (id 1) then `exTokWaitB` (id 2) with the same millisecond
`createdAt`; under the row enumeration `[exTokWaitB, exTokWaitA]` — a
permutation of the table the SQL engine is free to produce — the query
returns `exTokWaitB`, not the token inserted first. -/
theorem c4_counterexample :
    List.Perm [exTokWaitB, exTokWaitA] exDB4.tokens ∧
    exTokWaitA.id < exTokWaitB.id ∧
    exTokWaitA.createdAt = exTokWaitB.createdAt ∧
    getNextTokenScan [exTokWaitB, exTokWaitA] = some exTokWaitB ∧
    exTokWaitB ≠ exTokWaitA := by decide

theorem minStep_eq_some (acc : Option Token) (a : Token) :
    ∃ m, minStep acc a = some m := by
  cases acc with
  | none => exact ⟨a, rfl⟩
  | some b =>
    simp only [minStep]
    split
    · exact ⟨a, rfl⟩
    · exact ⟨b, rfl⟩

theorem foldl_minStep_some (l : List Token) :
    ∀ b : Token, ∃ t, l.foldl minStep (some b) = some t := by
  induction l with
  | nil => exact fun b => ⟨b, rfl⟩
  | cons a l ih =>
    intro b
    simp only [List.foldl_cons]
    obtain ⟨m, hm⟩ := minStep_eq_some (some b) a
    rw [hm]
    exact ih m

theorem foldl_minStep_eq_none {l : List Token} {acc : Option Token}
    (h : l.foldl minStep acc = none) : acc = none ∧ l = [] := by
  cases l with
  | nil => exact ⟨h, rfl⟩
  | cons a l =>
    exfalso
    simp only [List.foldl_cons] at h
    obtain ⟨m, hm⟩ := minStep_eq_some acc a
    rw [hm] at h
    obtain ⟨t, ht⟩ := foldl_minStep_some l m
    rw [ht] at h
    exact Option.noConfusion h

theorem foldl_minStep_mem (l : List Token) :
    ∀ (acc : Option Token) (t : Token),
      l.foldl minStep acc = some t → acc = some t ∨ t ∈ l := by
  induction l with
  | nil => exact fun acc t h => Or.inl h
  | cons a l ih =>
    intro acc t h
    simp only [List.foldl_cons] at h
    rcases ih (minStep acc a) t h with hstep | hmem
    · cases acc with
      | none =>
        simp only [minStep] at hstep
        exact Or.inr (by simp [← Option.some_inj.mp hstep])
      | some b =>
        simp only [minStep] at hstep
        split at hstep
        · exact Or.inr (by simp [← Option.some_inj.mp hstep])
        · exact Or.inl hstep
    · exact Or.inr (List.mem_cons_of_mem a hmem)

theorem foldl_minStep_le_seed (l : List Token) :
    ∀ b t : Token, l.foldl minStep (some b) = some t →
      t.createdAt ≤ b.createdAt := by
  induction l with
  | nil =>
    intro b t h
    rw [Option.some_inj.mp h]
  | cons a l ih =>
    intro b t h
    simp only [List.foldl_cons, minStep] at h
    split at h
    · exact le_of_lt (lt_of_le_of_lt (ih a t h) (by assumption))
    · exact ih b t h

theorem foldl_minStep_le (l : List Token) :
    ∀ (acc : Option Token) (t : Token), l.foldl minStep acc = some t →
      ∀ u ∈ l, t.createdAt ≤ u.createdAt := by
  induction l with
  | nil => intro _ _ _ u hu; exact absurd hu (List.not_mem_nil u)
  | cons a l ih =>
    intro acc t h u hu
    simp only [List.foldl_cons] at h
    rcases List.mem_cons.mp hu with rfl | hul
    · obtain ⟨m, hm⟩ := minStep_eq_some acc u
      have hma : m.createdAt ≤ u.createdAt := by
        cases acc with
        | none => simp only [minStep] at hm; rw [← Option.some_inj.mp hm]
        | some b =>
          simp only [minStep] at hm
          split at hm
          · rw [← Option.some_inj.mp hm]
          · rw [← Option.some_inj.mp hm]; exact le_of_not_lt (by assumption)
      rw [hm] at h
      exact le_trans (foldl_minStep_le_seed l m t h) hma
    · exact ih (minStep acc a) t h u hul

/-- Claim C4 (amended): under any row enumeration `scan` the SQL engine may
present for the token table, `getNextToken` returns empty exactly when no
`WAITING` token exists, and otherwise some `WAITING` token whose `createdAt`
is minimal among all `WAITING` tokens; nothing beyond `createdAt`-minimality
is guaranteed about which of several simultaneous tokens is returned. -/
theorem c4_next_pending_earliest (db : DB) (scan : List Token)
    (hperm : scan.Perm db.tokens) :
    (getNextTokenScan scan = none →
      ∀ t ∈ db.tokens, t.status ≠ TokenStatus.WAITING) ∧
    (∀ t, getNextTokenScan scan = some t →
      t ∈ db.tokens ∧ t.status = TokenStatus.WAITING ∧
      ∀ u ∈ db.tokens, u.status = TokenStatus.WAITING →
        t.createdAt ≤ u.createdAt) := by
  constructor
  · intro h t ht hstat
    have hmem : t ∈ scan := hperm.mem_iff.mpr ht
    have hf : t ∈ scan.filter (fun x => x.status == TokenStatus.WAITING) :=
      List.mem_filter.mpr ⟨hmem, by simp [hstat]⟩
    obtain ⟨-, hnil⟩ := foldl_minStep_eq_none h
    rw [hnil] at hf
    exact absurd hf (List.not_mem_nil t)
  · intro t h
    have hmem0 := foldl_minStep_mem _ none t h
    have htf : t ∈ scan.filter (fun x => x.status == TokenStatus.WAITING) := by
      rcases hmem0 with hno | hm
      · exact absurd hno (by simp)
      · exact hm
    obtain ⟨hts, htw⟩ := List.mem_filter.mp htf
    refine ⟨hperm.mem_iff.mp hts, by simpa using htw, ?_⟩
    intro u hu huw
    have huf : u ∈ scan.filter (fun x => x.status == TokenStatus.WAITING) :=
      List.mem_filter.mpr ⟨hperm.mem_iff.mpr hu, by simp [huw]⟩
    exact foldl_minStep_le _ none t h u huf

/-- Claim C4 witness: on the two-token store `exDB4`, enumerated in
insertion order, the query returns a `WAITING` token with minimal
`createdAt`. -/
theorem c4_next_pending_earliest_witness :
    getNextTokenScan exDB4.tokens = some exTokWaitA ∧
    exTokWaitA ∈ exDB4.tokens ∧ exTokWaitA.status = TokenStatus.WAITING ∧
    ∀ u ∈ exDB4.tokens, u.status = TokenStatus.WAITING →
      exTokWaitA.createdAt ≤ u.createdAt := by
  refine ⟨by decide, ?_⟩
  exact (c4_next_pending_earliest exDB4 exDB4.tokens (List.Perm.refl _)).2
    exTokWaitA (by decide)

/-! ## Claim C6: wait-time estimation window -/

/-- Claim C6 counterexample: the claim's average is taken over tokens
*completed* within the trailing 24 hours, but the source filters on
`createdAt`.  `exTokenOldCreated` was created 25 hours before `exNow` and
completed 20 minutes before `exNow` after a 10-minute service: the claim's
formula yields an estimate of 10 minutes at queue position 2, the code
yields the 5-minute default because its window misses the token. -/
theorem c6_counterexample :
    exTokenOldCreated.status = TokenStatus.COMPLETED ∧
    exTokenOldCreated.calledAt = some (exNow - 1800000) ∧
    exTokenOldCreated.completedAt = some (exNow - 1200000) ∧
    exNow - msPerDay ≤ exNow - 1200000 ∧
    estimateWaitTimeClaimed exDB6 exNow 2 = 10 ∧
    estimateWaitTime exDB6 exNow 2 = 5 := by
  refine ⟨rfl, rfl, rfl, by decide, ?_, by decide⟩
  norm_num [estimateWaitTimeClaimed, exDB6, exTokenOldCreated, exNow, msPerDay,
    List.filter, List.map, List.sum]

theorem foldl_serviceTime_eq_sum (l : List Token)
    (h : ∀ t ∈ l, t.calledAt.isSome ∧ t.completedAt.isSome) :
    ∀ s : Int,
      l.foldl (fun sum t =>
        match t.calledAt, t.completedAt with
        | some c, some d => sum + (d - c)
        | _, _ => sum) s =
      s + (l.map (fun t => t.completedAt.getD 0 - t.calledAt.getD 0)).sum := by
  induction l with
  | nil => simp
  | cons a l ih =>
    intro s
    obtain ⟨hc, hd⟩ := h a (List.mem_cons_self a l)
    obtain ⟨c, hc'⟩ := Option.isSome_iff_exists.mp hc
    obtain ⟨d, hd'⟩ := Option.isSome_iff_exists.mp hd
    simp only [List.foldl_cons, List.map_cons, List.sum_cons, hc', hd']
    rw [ih (fun t ht => h t (List.mem_cons_of_mem a ht)) (s + (d - c))]
    simp only [hc', hd', Option.getD_some]
    ring

/-- Claim C6 (amended): the source's estimate equals the claim's formula
with the window taken over `createdAt` and the mean rounded to whole minutes
before the 2-minute floor; the non-negativity part of the claim holds, and
the estimate at queue position 1 is zero. -/
theorem c6_estimate_amended (db : DB) (now queuePosition : Int) :
    estimateWaitTime db now queuePosition =
      estimateWaitTimeAmended db now queuePosition ∧
    0 ≤ estimateWaitTime db now queuePosition ∧
    estimateWaitTime db now 1 = 0 := by
  refine ⟨?_, le_max_left 0 _, by simp [estimateWaitTime]⟩
  simp only [estimateWaitTime, estimateWaitTimeAmended]
  have hmem : ∀ t ∈ db.tokens.filter
      (fun t => t.status == TokenStatus.COMPLETED && t.calledAt.isSome &&
        t.completedAt.isSome && decide (now - msPerDay ≤ t.createdAt)),
      t.calledAt.isSome ∧ t.completedAt.isSome := by
    intro t ht
    have hp := (List.mem_filter.mp ht).2
    simp only [Bool.and_assoc, Bool.and_eq_true] at hp
    exact ⟨hp.2.1, hp.2.2.1⟩
  rw [foldl_serviceTime_eq_sum _ hmem 0, zero_add]

/-! ## Claims C5 and C10: live position and details lookup -/

theorem find?_tokenNumber_unique (l : List Token) (code : String) (tok : Token)
    (huniq : l.Pairwise (fun a b => a.tokenNumber ≠ b.tokenNumber))
    (hmem : tok ∈ l) (hcode : tok.tokenNumber = code) :
    l.find? (fun t => t.tokenNumber == code) = some tok := by
  induction l with
  | nil => cases hmem
  | cons a l ih =>
    rcases List.mem_cons.mp hmem with rfl | hm
    · have : (tok.tokenNumber == code) = true := by simp [hcode]
      simp [List.find?_cons, this]
    · have hpair := List.pairwise_cons.mp huniq
      have hne : a.tokenNumber ≠ tok.tokenNumber :=
        fun h => (hpair.1 tok hm) h
      have hpa : (a.tokenNumber == code) = false := by
        simp only [beq_eq_false_iff_ne, ne_eq]
        rw [← hcode]
        exact hne
      simp only [List.find?_cons, hpa]
      exact ih hpair.2 hm

/-- Claim C5: `calculateQueuePosition` returns 0 for an unknown code, 0 for
a known token that is not `WAITING`, and otherwise one plus the number of
`WAITING` tokens of the same category created strictly earlier, all computed
from the live store passed in. -/
theorem c5_queue_position (db : DB) (code : String) :
    ((∀ t ∈ db.tokens, t.tokenNumber ≠ code) →
      calculateQueuePosition db code = 0) ∧
    (∀ tok : Token, UniqueTokenNumbers db → tok ∈ db.tokens →
      tok.tokenNumber = code →
      calculateQueuePosition db code =
        if tok.status = TokenStatus.WAITING then
          (db.tokens.filter (fun t => t.status == TokenStatus.WAITING &&
            t.serviceType == tok.serviceType &&
            decide (t.createdAt < tok.createdAt))).length + 1
        else 0) := by
  constructor
  · intro habs
    have hnone : db.tokens.find? (fun t => t.tokenNumber == code) = none := by
      rw [List.find?_eq_none]
      intro t ht
      simp only [beq_iff_eq]
      exact habs t ht
    simp [calculateQueuePosition, hnone]
  · intro tok huniq hmem hcode
    have hfind := find?_tokenNumber_unique db.tokens code tok huniq hmem hcode
    simp only [calculateQueuePosition, hfind]
    by_cases hw : tok.status = TokenStatus.WAITING
    · simp [hw, List.countP_eq_length_filter]
    · simp [hw]

/-- Claim C5 witness: in the mixed store `exDB5`, the waiting parcel token
`P-003` (created at 9000) stands behind the single earlier waiting parcel
token `P-002`, so its live position is 2. -/
theorem c5_queue_position_witness : calculateQueuePosition exDB5 "P-003" = 2 := by
  have h := (c5_queue_position exDB5 "P-003").2
    { exTokWaitA with id := 5, tokenNumber := "P-003", createdAt := 9000 }
    (by decide) (by decide) rfl
  rw [h]
  decide

/-- Claim C10: for an existing token that is `SERVING` or `COMPLETED`,
`getTokenDetails` reports queue position 0 and estimated wait 0; the live
position and wait-time computation is performed only for a `WAITING`
token. -/
theorem c10_details_zero_for_non_waiting (db : DB) (now : Int) (code : String)
    (tok : Token) (huniq : UniqueTokenNumbers db) (hmem : tok ∈ db.tokens)
    (hcode : tok.tokenNumber = code) :
    (tok.status = TokenStatus.SERVING ∨ tok.status = TokenStatus.COMPLETED →
      ∃ d, getTokenDetails db now code = some d ∧
        d.queuePosition = 0 ∧ d.estimatedWaitTime = 0 ∧ d.status = tok.status) ∧
    (tok.status = TokenStatus.WAITING →
      ∃ d, getTokenDetails db now code = some d ∧
        d.queuePosition = calculateQueuePosition db code ∧
        d.estimatedWaitTime =
          estimateWaitTime db now (calculateQueuePosition db code : Int)) := by
  have hfind := find?_tokenNumber_unique db.tokens code tok huniq hmem hcode
  constructor
  · intro hns
    have hw : ¬tok.status = TokenStatus.WAITING := by
      rcases hns with h | h <;> simp [h]
    refine ⟨⟨tok.tokenNumber, tok.serviceType, tok.status, 0, 0,
      counterNumberOf db tok, tok.createdAt, tok.calledAt, tok.completedAt⟩,
      ?_, rfl, rfl, rfl⟩
    simp only [getTokenDetails, hfind, if_neg hw]
  · intro hw
    refine ⟨⟨tok.tokenNumber, tok.serviceType, tok.status,
      calculateQueuePosition db code,
      estimateWaitTime db now (calculateQueuePosition db code : Int),
      counterNumberOf db tok, tok.createdAt, tok.calledAt, tok.completedAt⟩,
      ?_, rfl, rfl⟩
    simp only [getTokenDetails, hfind, if_pos hw]

/-- Claim C10 witness: the serving token `G-001` of `exDB5` is reported with
queue position 0 and estimated wait 0. -/
theorem c10_details_witness :
    ∃ d, getTokenDetails exDB5 8000 "G-001" = some d ∧
      d.queuePosition = 0 ∧ d.estimatedWaitTime = 0 ∧
      d.status = exTokenServing.status := by
  exact (c10_details_zero_for_non_waiting exDB5 8000 "G-001" exTokenServing
    (by decide) (by decide) rfl).1 (Or.inl rfl)

/-! ## Claim C7: lifecycle invariants over reachable states -/

theorem generateTokenTx_ok {db : DB} {now : Int} {st : String} {tok : Token}
    {db' : DB} (h : generateTokenTx db now st = .ok (tok, db')) :
    db'.tokens = db.tokens ++ [tok] ∧ tok.status = TokenStatus.WAITING ∧
    tok.counterId = none ∧ tok.serviceType = st ∧ tok.createdAt = now := by
  simp only [generateTokenTx] at h
  cases hf : findFreeTokenNumber db (servicePrefixOf st)
      (db.tokens.countP
        (fun t => t.serviceType == st && inTodayWindow now t.createdAt)) with
  | none => rw [hf] at h; exact absurd h (by simp)
  | some tn =>
    rw [hf] at h
    simp only [Except.ok.injEq, Prod.mk.injEq] at h
    obtain ⟨htok, hdb⟩ := h
    subst htok
    rw [← hdb]
    exact ⟨rfl, rfl, rfl, rfl, rfl⟩

theorem generateToken_ok {db : DB} {now : Int} {st : String}
    {twd : TokenWithDetails} {db' : DB}
    (h : generateToken db now st = .ok (twd, db')) :
    ∃ tok, generateTokenTx db now st = .ok (tok, db') := by
  unfold generateToken at h
  revert h
  cases htx : generateTokenTx db now st with
  | error e => intro h; exact absurd h (by simp)
  | ok r =>
    intro h
    obtain ⟨tok, dbx⟩ := r
    simp only [Except.ok.injEq, Prod.mk.injEq] at h
    exact ⟨tok, by rw [h.2]⟩

theorem updateFirst_mem {p : Token → Bool} {f : Token → Token} :
    ∀ {l : List Token} {u : Token} {l' : List Token},
      updateFirst p f l = some (u, l') →
      ∀ x ∈ l', x ∈ l ∨ ∃ y ∈ l, x = f y := by
  intro l
  induction l with
  | nil => intro u l' h; exact absurd h (by simp [updateFirst])
  | cons a l ih =>
    intro u l' h x hx
    by_cases hpa : p a
    · simp only [updateFirst, if_pos hpa, Option.some.injEq, Prod.mk.injEq] at h
      rw [← h.2] at hx
      rcases List.mem_cons.mp hx with rfl | hxl
      · exact Or.inr ⟨a, List.mem_cons_self a l, rfl⟩
      · exact Or.inl (List.mem_cons_of_mem a hxl)
    · simp only [updateFirst, if_neg hpa] at h
      cases hrec : updateFirst p f l with
      | none => rw [hrec] at h; exact absurd h (by simp)
      | some r =>
        obtain ⟨u0, l0⟩ := r
        rw [hrec] at h
        simp only [Option.some.injEq, Prod.mk.injEq] at h
        rw [← h.2] at hx
        rcases List.mem_cons.mp hx with rfl | hxl
        · exact Or.inl (List.mem_cons_self x l)
        · rcases ih hrec x hxl with hxm | ⟨y, hy, hxy⟩
          · exact Or.inl (List.mem_cons_of_mem a hxm)
          · exact Or.inr ⟨y, List.mem_cons_of_mem a hy, hxy⟩

theorem assignTokenToCounter_ok {db : DB} {now : Int} {tn : String} {cid : Nat}
    {tok : Token} {db' : DB}
    (h : assignTokenToCounter db now tn cid = .ok (tok, db')) :
    ∃ ts, db' = { db with tokens := ts } ∧
      updateFirst (fun t => t.tokenNumber == tn) (assignData now cid)
        db.tokens = some (tok, ts) := by
  unfold assignTokenToCounter at h
  revert h
  cases hup : updateFirst (fun t => t.tokenNumber == tn) (assignData now cid)
      db.tokens with
  | none => intro h; exact absurd h (by simp)
  | some r =>
    intro h
    obtain ⟨u, ts⟩ := r
    by_cases hc : db.counters.any (fun c => c.id == cid)
    · simp only [if_pos hc, Except.ok.injEq, Prod.mk.injEq] at h
      exact ⟨ts, h.2.symm, by rw [h.1]⟩
    · simp only [if_neg hc] at h; exact absurd h (by simp)

theorem completeToken_ok {db : DB} {now : Int} {tn : String}
    {tok : Token} {db' : DB}
    (h : completeToken db now tn = .ok (tok, db')) :
    ∃ ts, db' = { db with tokens := ts } ∧
      updateFirst (fun t => t.tokenNumber == tn) (completeData now)
        db.tokens = some (tok, ts) := by
  unfold completeToken at h
  revert h
  cases hup : updateFirst (fun t => t.tokenNumber == tn) (completeData now)
      db.tokens with
  | none => intro h; exact absurd h (by simp)
  | some r =>
    intro h
    obtain ⟨u, ts⟩ := r
    simp only [Except.ok.injEq, Prod.mk.injEq] at h
    exact ⟨ts, h.2.symm, by rw [h.1]⟩

/-- Claim C7: every store reachable through token creation, counter
assignment and completion satisfies both lifecycle invariants: a non-null
`counterRef` occurs only on a `Serving` token, and a `Completed` token has a
null `counterRef`.  (The operations establish the invariant on the row they
write even without any precondition check.) -/
theorem c7_reachable_token_invariants (db : DB) (h : Reachable db) :
    ∀ t ∈ db.tokens, TokenInv t := by
  induction h with
  | init counters nextId => intro t ht; exact absurd ht (List.not_mem_nil t)
  | gen hr hok ih =>
    obtain ⟨tok, htx⟩ := generateToken_ok hok
    obtain ⟨htoks, hst, hcid, -, -⟩ := generateTokenTx_ok htx
    intro t ht
    rw [htoks] at ht
    rcases List.mem_append.mp ht with hold | hnew
    · exact ih t hold
    · have heq : t = tok := by simpa using hnew
      subst heq
      exact ⟨fun hc => absurd hcid hc,
        fun hc => absurd (hst.symm.trans hc) (by decide)⟩
  | assign hr hok ih =>
    obtain ⟨ts, hdb, hup⟩ := assignTokenToCounter_ok hok
    intro t ht
    rw [hdb] at ht
    rcases updateFirst_mem hup t ht with hold | ⟨y, hy, hxy⟩
    · exact ih t hold
    · subst hxy
      exact ⟨fun _ => rfl, fun hc => by simp [assignData] at hc⟩
  | complete hr hok ih =>
    obtain ⟨ts, hdb, hup⟩ := completeToken_ok hok
    intro t ht
    rw [hdb] at ht
    rcases updateFirst_mem hup t ht with hold | ⟨y, hy, hxy⟩
    · exact ih t hold
    · subst hxy
      exact ⟨fun hc => absurd rfl hc, fun _ => rfl⟩

/-- Claim C7 witness: a concrete three-step run (create `P-001`, assign it
to counter 1) reaches the store `exGenDB2`, whose serving token satisfies
the invariants. -/
theorem c7_reachable_token_invariants_witness : TokenInv exAssignedTok := by
  have h0 := Reachable.init [exCounterActive] 1
  have h1 := Reachable.gen h0
    (show generateToken exGenDB0 1000 "Parcel Drop-off" =
      .ok (exGenTWD1, exGenDB1) by decide)
  have h2 := Reachable.assign h1
    (show assignTokenToCounter exGenDB1 2000 "P-001" 1 =
      .ok (exAssignedTok, exGenDB2) by decide)
  exact c7_reachable_token_invariants exGenDB2 h2 exAssignedTok (by decide)

/-! ## Claim C8: counter deactivation guard -/

theorem updateFirstCounter_unique (f : Counter → Counter) (cid : Nat) :
    ∀ (l : List Counter) (c : Counter),
      l.Pairwise (fun a b => a.id ≠ b.id) → c ∈ l → c.id = cid →
      ∃ cs, updateFirstCounter (fun x => x.id == cid) f l = some (f c, cs) ∧
        ∀ x ∈ cs, x ∈ l ∨ x = f c := by
  intro l
  induction l with
  | nil => intro c _ hmem _; cases hmem
  | cons a l ih =>
    intro c hpw hmem hid
    have hpair := List.pairwise_cons.mp hpw
    rcases List.mem_cons.mp hmem with rfl | hm
    · have hpa : (c.id == cid) = true := by simp [hid]
      refine ⟨f c :: l, by simp [updateFirstCounter, hpa], ?_⟩
      intro x hx
      rcases List.mem_cons.mp hx with rfl | hxl
      · exact Or.inr rfl
      · exact Or.inl (List.mem_cons_of_mem _ hxl)
    · have hne : a.id ≠ cid := by rw [← hid]; exact hpair.1 c hm
      have hpa : (a.id == cid) = false := by simp [hne]
      obtain ⟨cs, hcs, hmemcs⟩ := ih c hpair.2 hm hid
      refine ⟨a :: cs, ?_, ?_⟩
      · simp [updateFirstCounter, hpa, hcs]
      · intro x hx
        rcases List.mem_cons.mp hx with heq | hxl
        · subst heq; exact Or.inl (List.mem_cons_self _ _)
        · rcases hmemcs x hxl with hxm | hxf
          · exact Or.inl (List.mem_cons_of_mem a hxm)
          · exact Or.inr hxf

/-- Claim C8: deactivating counter `c` fails with the busy error — leaving
the store untouched, hence `c` still `ACTIVE` — whenever a `SERVING` token
references `c`; with no such token it succeeds, rewrites exactly `c` to
`INACTIVE`, and preserves the invariant that no `INACTIVE` counter is paired
with a `SERVING` token. -/
theorem c8_deactivate_guard (db : DB) (cid : Nat) (c : Counter)
    (hmem : c ∈ db.counters) (hid : c.id = cid)
    (huniq : db.counters.Pairwise (fun a b => a.id ≠ b.id)) :
    ((∃ t ∈ db.tokens, t.counterId = some cid ∧ t.status = TokenStatus.SERVING) →
      deactivateCounter db cid = .error .counterHasActiveTokens) ∧
    ((∀ t ∈ db.tokens, ¬(t.counterId = some cid ∧ t.status = TokenStatus.SERVING)) →
      ∃ cs, deactivateCounter db cid =
          .ok ({ c with status := CounterStatus.INACTIVE },
            { db with counters := cs }) ∧
        (∀ x ∈ cs, x ∈ db.counters ∨ x = { c with status := CounterStatus.INACTIVE }) ∧
        (InactiveCountersIdle db → InactiveCountersIdle { db with counters := cs })) := by
  constructor
  · intro ⟨t, htm, hcid, hserv⟩
    have hpos : 0 < db.tokens.countP (servingOn cid) :=
      List.countP_pos_iff.mpr ⟨t, htm, by simp [servingOn, hcid, hserv]⟩
    simp only [deactivateCounter, if_pos hpos]
  · intro hnone
    have hzero : db.tokens.countP (servingOn cid) = 0 := by
      rw [List.countP_eq_zero]
      intro t htm
      have := hnone t htm
      simp only [servingOn, Bool.and_eq_true, beq_iff_eq]
      intro hcc
      exact this ⟨hcc.1, hcc.2⟩
    obtain ⟨cs, hcs, hmemcs⟩ :=
      updateFirstCounter_unique
        (fun x => { x with status := CounterStatus.INACTIVE }) cid
        db.counters c huniq hmem hid
    refine ⟨cs, ?_, hmemcs, ?_⟩
    · simp [deactivateCounter, hzero, hcs]
    · intro hinv x hx hxin t htm
      rcases hmemcs x hx with hxm | hxf
      · exact hinv x hxm hxin t htm
      · subst hxf
        intro hct
        exact hnone t htm ⟨by rw [hct.1]; simp [hid], hct.2⟩

/-- Claim C8 witness: counter 1 of `exDB5` is busy serving `G-001`, so its
deactivation fails with the busy error; in `exDB1` it is idle, so
deactivation succeeds and yields an `INACTIVE` counter. -/
theorem c8_deactivate_guard_witness :
    deactivateCounter exDB5 1 = .error .counterHasActiveTokens ∧
    ∃ cs, deactivateCounter exDB1 1 =
        .ok ({ exCounterActive with status := CounterStatus.INACTIVE },
          { exDB1 with counters := cs }) ∧
      (∀ x ∈ cs, x ∈ exDB1.counters ∨
        x = { exCounterActive with status := CounterStatus.INACTIVE }) ∧
      (InactiveCountersIdle exDB1 → InactiveCountersIdle { exDB1 with counters := cs }) := by
  constructor
  · exact (c8_deactivate_guard exDB5 1 exCounterActive (by decide) rfl
      (by decide)).1 ⟨exTokenServing, by decide, rfl, rfl⟩
  · exact (c8_deactivate_guard exDB1 1 exCounterActive (by decide) rfl
      (by decide)).2 (by decide)

/-! ## Claim C3: sequential display codes under sequential execution -/

theorem inTodayWindow_iff (now x : Int) :
    inTodayWindow now x = true ↔ x / msPerDay = now / msPerDay := by
  simp only [inTodayWindow, dayStart, msPerDay, Bool.and_eq_true,
    decide_eq_true_eq]
  omega

theorem inTodayWindow_eq_decide (now x d : Int) (hnow : now / msPerDay = d) :
    inTodayWindow now x = decide (x / msPerDay = d) := by
  by_cases h : x / msPerDay = d
  · have ht : inTodayWindow now x = true :=
      (inTodayWindow_iff now x).mpr (by rw [hnow, h])
    simp [ht, h]
  · have hf : inTodayWindow now x ≠ true :=
      fun hc => h (by rw [← hnow]; exact (inTodayWindow_iff now x).mp hc)
    simp only [Bool.not_eq_true] at hf
    simp [hf, h]

theorem findFree_head (db : DB) (pfx : String) (base : Nat)
    (h : tokenNumberExists db (formatCode pfx (base + 1)) = false) :
    findFreeTokenNumber db pfx base = some (formatCode pfx (base + 1)) := by
  unfold findFreeTokenNumber
  rw [show List.range 10 = 0 :: [1, 2, 3, 4, 5, 6, 7, 8, 9] from by rfl]
  simp [List.findSome?_cons, h]

theorem generateTokenTx_fresh (db1 : DB) (now : Int) (st : String) (d : Int)
    (k : Nat) (hnow : now / msPerDay = d)
    (hcount : db1.tokens.countP
      (fun t => t.serviceType == st && decide (t.createdAt / msPerDay = d)) = k)
    (hcodes : ∀ t ∈ db1.tokens, ∀ m : Nat,
      t.tokenNumber = formatCode (servicePrefixOf st) m → 1 ≤ m ∧ m ≤ k) :
    ∃ tok, generateTokenTx db1 now st =
        .ok (tok,
          { db1 with tokens := db1.tokens ++ [tok], nextId := db1.nextId + 1 }) ∧
      tok.tokenNumber = formatCode (servicePrefixOf st) (k + 1) ∧
      tok.serviceType = st ∧ tok.status = TokenStatus.WAITING ∧
      tok.createdAt = now := by
  have hcountW : db1.tokens.countP
      (fun t => t.serviceType == st && inTodayWindow now t.createdAt) = k := by
    have hpt : ∀ t ∈ db1.tokens,
        (t.serviceType == st && inTodayWindow now t.createdAt) ↔
        (t.serviceType == st && decide (t.createdAt / msPerDay = d)) := by
      intro t _
      rw [inTodayWindow_eq_decide now t.createdAt d hnow]
    rw [List.countP_congr hpt, hcount]
  have hex : tokenNumberExists db1 (formatCode (servicePrefixOf st) (k + 1)) =
      false := by
    unfold tokenNumberExists
    rw [List.any_eq_false]
    intro t ht
    simp only [beq_iff_eq]
    intro hc
    have := (hcodes t ht (k + 1) hc).2
    omega
  have hfind := findFree_head db1 (servicePrefixOf st) k hex
  refine ⟨⟨db1.nextId, formatCode (servicePrefixOf st) (k + 1), st,
    TokenStatus.WAITING,
    some (db1.tokens.countP
      (fun t => t.status == TokenStatus.WAITING && t.serviceType == st) + 1),
    none, now, none, none⟩, ?_, rfl, rfl, rfl, rfl⟩
  simp only [generateTokenTx]
  rw [hcountW, hfind]

theorem generateToken_of_tx {db : DB} {now : Int} {st : String} {tok : Token}
    {db' : DB} (h : generateTokenTx db now st = .ok (tok, db')) :
    ∃ twd : TokenWithDetails, generateToken db now st = .ok (twd, db') ∧
      twd.tokenNumber = tok.tokenNumber := by
  unfold generateToken
  rw [h]
  exact ⟨_, rfl, rfl⟩

theorem c3_aux (st : String) (d : Int) :
    ∀ (ts : List Int) (db1 : DB) (k : Nat),
      (∀ x ∈ ts, x / msPerDay = d) →
      db1.tokens.countP
        (fun t => t.serviceType == st && decide (t.createdAt / msPerDay = d)) = k →
      (∀ t ∈ db1.tokens, ∀ m : Nat,
        t.tokenNumber = formatCode (servicePrefixOf st) m → 1 ≤ m ∧ m ≤ k) →
      ∃ db2, generateMany st db1 ts =
        .ok ((List.range ts.length).map
          (fun i => formatCode (servicePrefixOf st) (k + i + 1)), db2) := by
  intro ts
  induction ts with
  | nil =>
    intro db1 k _ _ _
    exact ⟨db1, by simp [generateMany]⟩
  | cons now rest ih =>
    intro db1 k hday hcount hcodes
    obtain ⟨tok, hTx, htn, hsvc, hstat, hcreated⟩ :=
      generateTokenTx_fresh db1 now st d k
        (hday now (List.mem_cons_self now rest)) hcount hcodes
    obtain ⟨twd, hgen, htwd⟩ := generateToken_of_tx hTx
    have hd : decide (tok.createdAt / msPerDay = d) = true := by
      rw [hcreated]
      simp [hday now (List.mem_cons_self now rest)]
    have hcount' : (db1.tokens ++ [tok]).countP
        (fun t => t.serviceType == st && decide (t.createdAt / msPerDay = d)) =
        k + 1 := by
      rw [List.countP_append, hcount]
      simp [List.countP_cons, hsvc, hd]
    have hcodes' : ∀ t ∈ db1.tokens ++ [tok], ∀ m : Nat,
        t.tokenNumber = formatCode (servicePrefixOf st) m →
        1 ≤ m ∧ m ≤ k + 1 := by
      intro t ht m hm
      rcases List.mem_append.mp ht with hold | hnew
      · have := hcodes t hold m hm
        omega
      · have heq : t = tok := by simpa using hnew
        subst heq
        have : k + 1 = m := formatCode_inj _ (htn.symm.trans hm)
        omega
    obtain ⟨db2, hmany⟩ := ih
      { db1 with tokens := db1.tokens ++ [tok], nextId := db1.nextId + 1 }
      (k + 1) (fun x hx => hday x (List.mem_cons_of_mem now hx))
      hcount' hcodes'
    refine ⟨db2, ?_⟩
    have hlist : twd.tokenNumber :: (List.range rest.length).map
        (fun i => formatCode (servicePrefixOf st) (k + 1 + i + 1)) =
        (List.range (rest.length + 1)).map
          (fun i => formatCode (servicePrefixOf st) (k + i + 1)) := by
      rw [htwd, htn, List.range_succ_eq_map, List.map_cons, List.map_map]
      refine congrArg₂ List.cons (congrArg _ (by omega)) ?_
      refine List.map_congr_left ?_
      intro a _
      exact congrArg _ (by omega)
    simp only [generateMany, hgen, hmany, List.length_cons]
    rw [hlist]

/-- Claim C3: starting from a store holding no token of category `st` (and
none carrying a display code of `st`'s format), N sequential calls to
`generateToken` for `st` within one calendar day succeed and produce the
display codes with sequence numbers exactly `1..N` in call order, each
formatted by `formatCode` (prefix letter, dash, zero-padded 3-digit
number). -/
theorem c3_sequential_codes (db0 : DB) (st : String) (ts : List Int) (d : Int)
    (_hst : st ∈ validServiceTypes)
    (hday : ∀ x ∈ ts, x / msPerDay = d)
    (hother : ∀ t ∈ db0.tokens, t.serviceType ≠ st ∧
      ∀ m : Nat, t.tokenNumber ≠ formatCode (servicePrefixOf st) m) :
    ∃ db', generateMany st db0 ts =
      .ok ((List.range ts.length).map
        (fun i => formatCode (servicePrefixOf st) (i + 1)), db') := by
  have h0 : db0.tokens.countP
      (fun t => t.serviceType == st && decide (t.createdAt / msPerDay = d)) =
      0 := by
    rw [List.countP_eq_zero]
    intro t ht hc
    rw [Bool.and_eq_true, beq_iff_eq] at hc
    exact (hother t ht).1 hc.1
  have hc0 : ∀ t ∈ db0.tokens, ∀ m : Nat,
      t.tokenNumber = formatCode (servicePrefixOf st) m → 1 ≤ m ∧ m ≤ 0 := by
    intro t ht m hm
    exact absurd hm ((hother t ht).2 m)
  obtain ⟨db', h⟩ := c3_aux st d ts db0 0 hday h0 hc0
  refine ⟨db', h.trans ?_⟩
  exact congrArg (fun L => Except.ok (L, db'))
    (List.map_congr_left (fun a _ => congrArg _ (by omega)))

/-- Claim C3 witness: three calls for the parcel category on an empty store,
all within the epoch day, return the codes `P-001`, `P-002`, `P-003`. -/
theorem c3_sequential_codes_witness :
    ∃ db', generateMany "Parcel Drop-off" emptyDB [1000, 2000, 3000] =
      .ok (["P-001", "P-002", "P-003"], db') := by
  obtain ⟨db', h⟩ := c3_sequential_codes emptyDB "Parcel Drop-off"
    [1000, 2000, 3000] 0 (by decide) (by decide)
    (fun t ht => absurd ht (List.not_mem_nil t))
  refine ⟨db', h.trans ?_⟩
  exact congrArg (fun L => Except.ok (L, db')) (by decide)

end SwiftPost
